import Mathlib

/-!
Shallow embedding of the tool-calling orchestration engine of this repository:
the capability catalog (`AdvancedAgentTools`), the tool-call protocol decoder
(`parseToolCalls`), and the orchestration loop (`EliteAgenticCodingAgent.chat`).

Conventions of the embedding:
* JavaScript strings are modelled as `String`/`List Char`; the JS primitives
  used by the source (`includes`, `trim`, `split('\n')`, `startsWith`) are
  defined below from first principles.
* The regexes of the source are hand-compiled to total scanners with the same
  left-to-right, leftmost-alternative, non-overlapping match discipline that
  `RegExp.prototype.exec`/`String.prototype.match` with the `g` flag use.
  All of the source's patterns only match non-empty text, so scanning by
  structural recursion on the remaining characters is faithful.
* `\s` is modelled by `jsSpace`, covering the ASCII whitespace characters plus
  NBSP and BOM; the remaining Unicode space code points never occur in any
  input considered here.
* Asynchronous collaborators (filesystem, shell, model) are explicit function
  parameters; a JS exception is an `Except.error`.  `Promise.all` over the
  per-call promises settles in input order, which the pure `List.map` mirrors.
-/

namespace Spec2Proof

set_option maxRecDepth 10000

/-- `needle.leadsWith hay`-style check: does `hay` start with `needle`?
Models JS `String.prototype.startsWith` / the anchored step of `includes`. -/
def leadsWith : List Char → List Char → Bool
  | [], _ => true
  | _ :: _, [] => false
  | a :: as, b :: bs => a = b && leadsWith as bs

/-- JS `String.prototype.includes` on character lists. -/
def containsSeq (hay needle : List Char) : Bool :=
  if leadsWith needle hay then true
  else
    match hay with
    | [] => false
    | _ :: t => containsSeq t needle

/-- JS `String.prototype.includes`. -/
def sIncludes (hay needle : String) : Bool :=
  containsSeq hay.data needle.data

/-- The whitespace class used by JS `\s` and `String.prototype.trim`:
ASCII whitespace, NBSP and BOM.  (The other Unicode space code points in the
class never appear in the material under verification.) -/
def jsSpace (c : Char) : Bool :=
  c = ' ' || c = '\t' || c = '\n' || c = '\r' || c = '\x0b' || c = '\x0c' ||
  c = ' ' || c = '﻿'

/-- JS `String.prototype.trim` on character lists. -/
def trimList (cs : List Char) : List Char :=
  ((cs.dropWhile jsSpace).reverse.dropWhile jsSpace).reverse

/-! ### Hand-compiled regex scanners

A `Pat` consumes a match at the current position and returns the rest of the
input, or `none` when the regex alternative does not match here.  All patterns
below consume at least one character whenever they succeed. -/

/-- One regex alternative, applied at a fixed position. -/
def Pat : Type := List Char → Option (List Char)

/-- A literal alternative, e.g. `else` or `&&`. -/
def litP (s : String) : Pat := fun cs =>
  if leadsWith s.data cs then some (cs.drop s.data.length) else none

/-- An alternative of the form `kw\s*\(`, e.g. `if\s*\(` or `while\s*\(`. -/
def litWsParen (s : String) : Pat := fun cs =>
  if leadsWith s.data cs then
    match (cs.drop s.data.length).dropWhile jsSpace with
    | '(' :: rest => some rest
    | _ => none
  else none

/-- The alternative `catch\s*\(\s*\)` of the empty-catch heuristic. -/
def catchEmptyP : Pat := fun cs =>
  if leadsWith "catch".data cs then
    match (cs.drop 5).dropWhile jsSpace with
    | '(' :: r2 =>
      match r2.dropWhile jsSpace with
      | ')' :: r3 => some r3
      | _ => none
    | _ => none
  else none

/-- First alternative that matches at this position (JS alternation order). -/
def firstAlt (pats : List Pat) (cs : List Char) : Option (List Char) :=
  match pats with
  | [] => none
  | p :: ps =>
    match p cs with
    | some r => some r
    | none => firstAlt ps cs

/-- Count the non-overlapping, left-to-right matches of an alternation, the
way `String.prototype.match(/…/g).length` counts them.  `fuel` bounds the
scan; `fuel = cs.length` always suffices because every pattern consumes at
least one character. -/
def countMatchesAux (pats : List Pat) : Nat → List Char → Nat
  | 0, _ => 0
  | fuel + 1, cs =>
    match firstAlt pats cs with
    | some rest => countMatchesAux pats fuel rest + 1
    | none =>
      match cs with
      | [] => 0
      | _ :: t => countMatchesAux pats fuel t

/-- `(code.match(regex) || []).length` for an alternation of `Pat`s. -/
def countMatches (pats : List Pat) (cs : List Char) : Nat :=
  countMatchesAux pats cs.length cs

/-- Does the alternation match anywhere?  Models `regex.test(code)`. -/
def regexTest (p : Pat) : List Char → Bool
  | [] => (p []).isSome
  | c :: t => if (p (c :: t)).isSome then true else regexTest p t

/-! ### `AdvancedAgentTools.calculateComplexity` / `findCodeIssues` -/

/-- The alternatives of `/if\s*\(|else|switch|case|while\s*\(|for\s*\(/g`. -/
def conditionalPats : List Pat :=
  [litWsParen "if", litP "else", litP "switch", litP "case",
   litWsParen "while", litWsParen "for"]

/-- The alternatives of `/&&|\|\|/g`. -/
def logicalPats : List Pat := [litP "&&", litP "||"]

/-- `AdvancedAgentTools.calculateComplexity`: conditional/loop keyword count
plus logical-operator count plus a baseline of 1. -/
def calculateComplexity (code : List Char) : Nat :=
  countMatches conditionalPats code + countMatches logicalPats code + 1

/-- `AdvancedAgentTools.findCodeIssues`: five independent boolean heuristics,
each contributing one fixed string, in source order. -/
def findCodeIssues (code : List Char) : List String :=
  (if containsSeq code "console.log".data then ["Contains console.log statements"] else []) ++
  (if containsSeq code "any".data && containsSeq code "typescript".data then
    ["Uses \"any\" type"] else []) ++
  (if regexTest catchEmptyP code then ["Empty catch blocks"] else []) ++
  (if !containsSeq code "try".data && containsSeq code "await".data then
    ["Unhandled async errors"] else []) ++
  (if (code.splitOn '\n').any (fun l => 120 < l.length) then
    ["Lines exceed 120 characters"] else [])

/-- The fields of the record built by the `analyze_code` tool that describe
the file's content.  (The `functions`/`classes`/`imports`/`exports` counters
of the source record are further independent regex counts; no property below
mentions them, so they are not carried in the record.) -/
structure CodeAnalysis where
  path : String
  totalLines : Nat
  codeLines : Nat
  commentLines : Nat
  emptyLines : Nat
  complexity : Nat
  issues : List String
deriving DecidableEq

/-- The pure body of the `analyze_code` tool, applied to the content the
filesystem collaborator returned for `path`. -/
def analyzeCode (path : String) (content : String) : CodeAnalysis :=
  let lines := content.data.splitOn '\n'
  { path := path
    totalLines := lines.length
    codeLines := (lines.filter fun l =>
      !(trimList l).isEmpty && !leadsWith "//".data (trimList l)).length
    commentLines := (lines.filter fun l => leadsWith "//".data (trimList l)).length
    emptyLines := (lines.filter fun l => (trimList l).isEmpty).length
    complexity := calculateComplexity content.data
    issues := findCodeIssues content.data }

/-! ### JSON values and `JSON.parse`

The decoder calls `JSON.parse` on each fenced block and the result feedback
calls `JSON.stringify`.  Both are modelled here.  Numbers are carried as their
validated lexeme (IEEE float semantics are out of scope and no property
inspects a numeric value); object fields are kept in textual order. -/

inductive JsonVal where
  | null : JsonVal
  | bool : Bool → JsonVal
  | num : String → JsonVal
  | str : String → JsonVal
  | arr : List JsonVal → JsonVal
  | obj : List (String × JsonVal) → JsonVal

/-- JS object field access `v[k]` on a parsed object (no claim below involves
duplicate keys, so first-match lookup is adequate). -/
def getField (v : JsonVal) (k : String) : Option JsonVal :=
  match v with
  | .obj fs => fs.lookup k
  | _ => none

/-- The whitespace accepted between JSON tokens by `JSON.parse`. -/
def jsonWs (c : Char) : Bool :=
  c = ' ' || c = '\t' || c = '\n' || c = '\r'

/-- Decode one hex digit of a `\uXXXX` escape (code-point arithmetic: digits
end at 57, uppercase letters start at 65, lowercase at 97). -/
def hexVal (c : Char) : Option Nat :=
  let n := c.toNat
  if 48 ≤ n ∧ n ≤ 57 then some (n - 48)
  else if 97 ≤ n ∧ n ≤ 102 then some (n - 87)
  else if 65 ≤ n ∧ n ≤ 70 then some (n - 55)
  else none

/-- Body of a JSON string literal, after the opening quote.  Accepts the JSON
escapes; rejects raw control characters, bad escapes and unterminated
literals, as `JSON.parse` does.  (`\u` escapes in the surrogate range, which
JS strings can hold as UTF-16 units but `Char` cannot, are rejected; none of
the texts under verification contain them.) -/
def parseStrBody : Nat → List Char → List Char → Option (String × List Char)
  | 0, _, _ => none
  | _ + 1, [], _ => none
  | _ + 1, '"' :: r, acc => some (String.mk acc.reverse, r)
  | fuel + 1, '\\' :: e :: r, acc =>
    match e with
    | '"' => parseStrBody fuel r ('"' :: acc)
    | '\\' => parseStrBody fuel r ('\\' :: acc)
    | '/' => parseStrBody fuel r ('/' :: acc)
    | 'b' => parseStrBody fuel r ('\x08' :: acc)
    | 'f' => parseStrBody fuel r ('\x0c' :: acc)
    | 'n' => parseStrBody fuel r ('\n' :: acc)
    | 'r' => parseStrBody fuel r ('\r' :: acc)
    | 't' => parseStrBody fuel r ('\t' :: acc)
    | 'u' =>
      match r with
      | h1 :: h2 :: h3 :: h4 :: r2 =>
        match hexVal h1, hexVal h2, hexVal h3, hexVal h4 with
        | some a, some b, some c, some d =>
          let n := ((a * 16 + b) * 16 + c) * 16 + d
          if 0xd800 ≤ n && n < 0xe000 then none
          else parseStrBody fuel r2 (Char.ofNat n :: acc)
        | _, _, _, _ => none
      | _ => none
    | _ => none
  | _ + 1, ['\\'], _ => none
  | fuel + 1, c :: r, acc =>
    if c.toNat < 0x20 then none else parseStrBody fuel r (c :: acc)

/-- The optional fraction part of a JSON number. -/
def parseFracPart (cs : List Char) : Option (List Char × List Char) :=
  match cs with
  | '.' :: t =>
    let d := t.takeWhile Char.isDigit
    if d.isEmpty then none else some ('.' :: d, t.dropWhile Char.isDigit)
  | _ => some ([], cs)

/-- The optional exponent part of a JSON number. -/
def parseExpPart (cs : List Char) : Option (List Char × List Char) :=
  match cs with
  | c :: t =>
    if c = 'e' || c = 'E' then
      let (sgn, t1) :=
        match t with
        | '+' :: t1 => (['+'], t1)
        | '-' :: t1 => (['-'], t1)
        | _ => ([], t)
      let d := t1.takeWhile Char.isDigit
      if d.isEmpty then none
      else some (c :: (sgn ++ d), t1.dropWhile Char.isDigit)
    else some ([], cs)
  | [] => some ([], cs)

/-- A JSON number at the current position: optional minus, integer part with
no leading zero, optional fraction and exponent.  The lexeme is kept. -/
def parseNum (cs : List Char) : Option (JsonVal × List Char) :=
  let (sgn, cs1) := match cs with | '-' :: t => (['-'], t) | _ => ([], cs)
  let ip := cs1.takeWhile Char.isDigit
  let cs2 := cs1.dropWhile Char.isDigit
  if ip.isEmpty then none
  else if 1 < ip.length && ip.head? = some '0' then none
  else
    match parseFracPart cs2 with
    | none => none
    | some (fp, cs3) =>
      match parseExpPart cs3 with
      | none => none
      | some (ep, cs4) => some (.num (String.mk (sgn ++ ip ++ fp ++ ep)), cs4)

mutual

/-- One JSON value at the current position (leading whitespace allowed),
returning the remaining input — the core of `JSON.parse`. -/
def parseVal : Nat → List Char → Option (JsonVal × List Char)
  | 0, _ => none
  | fuel + 1, cs =>
    let cs1 := cs.dropWhile jsonWs
    match cs1 with
    | [] => none
    | 'n' :: _ => if leadsWith "null".data cs1 then some (.null, cs1.drop 4) else none
    | 't' :: _ => if leadsWith "true".data cs1 then some (.bool true, cs1.drop 4) else none
    | 'f' :: _ => if leadsWith "false".data cs1 then some (.bool false, cs1.drop 5) else none
    | '"' :: rest => (parseStrBody (rest.length + 1) rest []).map fun p => (.str p.1, p.2)
    | '[' :: rest =>
      match rest.dropWhile jsonWs with
      | ']' :: r2 => some (.arr [], r2)
      | _ => parseItems fuel rest []
    | '\x7b' :: rest =>
      match rest.dropWhile jsonWs with
      | '\x7d' :: r2 => some (.obj [], r2)
      | _ => parseFields fuel rest []
    | c :: _ => if c = '-' || c.isDigit then parseNum cs1 else none

/-- The comma-separated items of a non-empty JSON array. -/
def parseItems : Nat → List Char → List JsonVal → Option (JsonVal × List Char)
  | 0, _, _ => none
  | fuel + 1, cs, acc =>
    match parseVal fuel cs with
    | none => none
    | some (v, r) =>
      match r.dropWhile jsonWs with
      | ',' :: r2 => parseItems fuel r2 (v :: acc)
      | ']' :: r2 => some (.arr (v :: acc).reverse, r2)
      | _ => none

/-- The comma-separated `"key": value` fields of a non-empty JSON object. -/
def parseFields : Nat → List Char → List (String × JsonVal) → Option (JsonVal × List Char)
  | 0, _, _ => none
  | fuel + 1, cs, acc =>
    match cs.dropWhile jsonWs with
    | '"' :: r =>
      match parseStrBody (r.length + 1) r [] with
      | none => none
      | some (k, r1) =>
        match r1.dropWhile jsonWs with
        | ':' :: r2 =>
          match parseVal fuel r2 with
          | none => none
          | some (v, r3) =>
            match r3.dropWhile jsonWs with
            | ',' :: r4 => parseFields fuel r4 ((k, v) :: acc)
            | '\x7d' :: r4 => some (.obj ((k, v) :: acc).reverse, r4)
            | _ => none
        | _ => none
    | _ => none

end

/-- `JSON.parse`: one value followed only by whitespace; anything else is a
`SyntaxError`, modelled as `none`. -/
def jsonParse (s : String) : Option JsonVal :=
  match parseVal (2 * s.data.length + 2) s.data with
  | some (v, rest) => if (rest.dropWhile jsonWs).isEmpty then some v else none
  | none => none

/-! ### `JSON.stringify`

Used by the loop only to synthesize the tool-result feedback message.  The
source calls `JSON.stringify(result, null, 2)`; the 2-space pretty-printing
and the full control-character escaping are not modelled (no property below
inspects this string), the serialization is compact. -/

/-- Escape one character of a JSON string literal. -/
def escapeChar (c : Char) : List Char :=
  if c = '"' then ['\\', '"']
  else if c = '\\' then ['\\', '\\']
  else if c = '\n' then ['\\', 'n']
  else if c = '\r' then ['\\', 'r']
  else if c = '\t' then ['\\', 't']
  else [c]

/-- Escape a JSON string literal body. -/
def escapeJson (s : String) : String :=
  String.mk (s.data.flatMap escapeChar)

mutual

/-- Compact model of `JSON.stringify`. -/
def jsonStringify : JsonVal → String
  | .null => "null"
  | .bool true => "true"
  | .bool false => "false"
  | .num s => s
  | .str s => "\"" ++ escapeJson s ++ "\""
  | .arr xs => "[" ++ stringifyItems xs ++ "]"
  | .obj fs => "\x7b" ++ stringifyFields fs ++ "\x7d"

/-- Serialize array items, comma-separated. -/
def stringifyItems : List JsonVal → String
  | [] => ""
  | [x] => jsonStringify x
  | x :: y :: xs => jsonStringify x ++ "," ++ stringifyItems (y :: xs)

/-- Serialize object fields, comma-separated. -/
def stringifyFields : List (String × JsonVal) → String
  | [] => ""
  | [(k, v)] => "\"" ++ escapeJson k ++ "\":" ++ jsonStringify v
  | (k, v) :: f :: fs =>
    "\"" ++ escapeJson k ++ "\":" ++ jsonStringify v ++ "," ++ stringifyFields (f :: fs)

end

/-! ### Tool-call protocol decoder — `EliteAgenticCodingAgent.parseToolCalls`

The source scans the turn text with `/```tool_call\n([\s\S]*?)\n```/g`: at
each match the lazily-quantified group is the text between the marker and the
*first* following `\n````, and scanning resumes after the closing fence.  On
each captured block it runs `JSON.parse` on the trimmed content inside a
`try`; on success, if the value has a `tool_calls` array its elements are
appended, and a parse failure only logs and continues with the next block. -/

/-- The opening fence of the wire protocol. -/
def fenceMarker : List Char := "```tool_call\n".data

/-- The closing fence of the wire protocol. -/
def fenceCloser : List Char := "\n```".data

/-- Split `cs` at the first occurrence of `needle`: the part before the
occurrence and the remainder after it.  `none` when `needle` never occurs. -/
def splitAfterSub (cs needle : List Char) : Option (List Char × List Char) :=
  if leadsWith needle cs then some ([], cs.drop needle.length)
  else
    match cs with
    | [] => none
    | c :: t => (splitAfterSub t needle).map fun p => (c :: p.1, p.2)

/-- All captured groups of the fence regex, in document order. -/
def extractBlocks : Nat → List Char → List (List Char)
  | 0, _ => []
  | fuel + 1, cs =>
    match splitAfterSub cs fenceMarker with
    | none => []
    | some (_, afterMarker) =>
      match splitAfterSub afterMarker fenceCloser with
      | none => []
      | some (content, rest) => content :: extractBlocks fuel rest

/-- Decode one captured block: `JSON.parse` the trimmed content; on success
take the elements of its `tool_calls` array; a `SyntaxError` (or a value
without a `tool_calls` array) contributes nothing. -/
def decodeBlock (block : List Char) : List JsonVal :=
  match jsonParse (String.mk (trimList block)) with
  | none => []
  | some v =>
    match getField v "tool_calls" with
    | some (.arr items) => items
    | _ => []

/-- The `while ((match = regex.exec(response)) !== null)` loop of
`parseToolCalls`, pushing each block's decoded calls in document order. -/
def parseLoop : Nat → List Char → List JsonVal
  | 0, _ => []
  | fuel + 1, cs =>
    match splitAfterSub cs fenceMarker with
    | none => []
    | some (_, afterMarker) =>
      match splitAfterSub afterMarker fenceCloser with
      | none => []
      | some (content, rest) => decodeBlock content ++ parseLoop fuel rest

/-- `parseToolCalls` at the JSON level: every decoded element of every
`tool_calls` array, in document order. -/
def parseToolCallsJson (response : String) : List JsonVal :=
  parseLoop (response.data.length + 1) response.data

/-! ### Capability catalog — `AdvancedAgentTools` invocation contract -/

/-- `ToolCall` of `AdvancedAgentTools`: correlation id, tool name, untyped
parameter bindings. -/
structure ToolCall where
  id : String
  name : String
  parameters : JsonVal

/-- `ToolResult` of `AdvancedAgentTools`: the paired id and name, the success
payload (`none` models JS `null`) and the optional failure message. -/
structure ToolResult where
  id : String
  name : String
  result : Option JsonVal
  error : Option String

/-- The registered handler map `tools : Map<string, Tool>`, with each
handler's `execute` body: a JS rejection/throw is `Except.error`. -/
def ToolEnv : Type := String → Option (JsonVal → Except String JsonVal)

/-- `AdvancedAgentTools.executeTool`: unknown names yield a ToolNotFound
result, a throwing handler yields a result carrying only that error — never a
thrown failure across the loop boundary. -/
def executeTool (env : ToolEnv) (call : ToolCall) : ToolResult :=
  match env call.name with
  | none =>
    { id := call.id, name := call.name, result := none,
      error := some ("Tool '" ++ call.name ++ "' not found") }
  | some exec =>
    match exec call.parameters with
    | .ok v => { id := call.id, name := call.name, result := some v, error := none }
    | .error e => { id := call.id, name := call.name, result := none, error := some e }

/-- `AdvancedAgentTools.executeTools`: `Promise.all` over the per-call
promises; `Promise.all` resolves with the results in input order once all
have settled, which the pure map mirrors. -/
def executeTools (env : ToolEnv) (calls : List ToolCall) : List ToolResult :=
  calls.map (executeTool env)

/-! ### The `run_command` tool -/

/-- What the command-execution collaborator returns when the process runs. -/
structure ExecOutcome where
  stdout : String
  stderr : String

/-- The success payload of `run_command`. -/
structure CmdReport where
  command : String
  stdout : String
  stderr : String
  hasError : Bool

/-- The deny list of `run_command` (source order): recursive force-delete,
raw-device write, filesystem format, fork bomb, permission-wildcard change. -/
def dangerousPatterns : List String :=
  ["rm -rf", "dd if=", "mkfs", ":()\x7b :|:& \x7d;:", "chmod -R 777"]

/-- The deny-list check `dangerous.some(cmd => params.command.includes(cmd))`. -/
def isDangerous (command : String) : Bool :=
  dangerousPatterns.any fun d => sIncludes command d

/-- The `run_command` handler.  `exec` is the command-execution collaborator
(`execAsync`); a non-zero exit or timeout is its `Except.error`.  The second
component records every command actually handed to the collaborator, so that
"rejected before any process is spawned" is an observable fact.  All throws
are wrapped by the handler's own catch into `Command failed: …`. -/
def run_command (exec : String → Except String ExecOutcome) (command : String) :
    Except String CmdReport × List String :=
  if isDangerous command then
    (.error "Command failed: Dangerous command blocked", [])
  else
    match exec command with
    | .error e => (.error ("Command failed: " ++ e), [command])
    | .ok o =>
      (.ok { command := command
             stdout := o.stdout.take 5000
             stderr := o.stderr.take 1000
             hasError := 0 < o.stderr.length }, [command])

/-! ### Orchestration loop — `EliteAgenticCodingAgent.chat`

The loop is deterministic given its collaborators, which are explicit
parameters here:
* `gen i` is the complete text the streamed generation call assembles on the
  `i`-th round of this run (1-based) — any behaviour of the text-generation
  collaborator induces such a per-round trace, so quantifying over `gen`
  covers every collaborator behaviour;
* `env` is the handler map the catalog binds to the filesystem/shell;
* `sysPrompt` is the text of `createAdvancedSystemPrompt()` and `summary` the
  text `projectContext.generateProjectSummary()` returns (their contents are
  irrelevant to every property below).
`Message.timestamp` (wall-clock `Date`) and the `projectInsights` snapshot
attached to the final response are not modelled; the pre-loop one-shot
project analysis only populates that cache and emits one `analyzing` action
to the `onAction` observer, never into the `actions` array. -/

/-- `Message.role`. -/
inductive Role where
  | user : Role
  | assistant : Role
  | system : Role
deriving DecidableEq

/-- One turn of the conversation ledger. -/
structure Message where
  role : Role
  content : String
deriving DecidableEq

/-- `AgentAction.type`. -/
inductive ActionType where
  | thinking | tool_call | tool_result | response | planning | analyzing
deriving DecidableEq

/-- One observable `AgentAction` (timestamp not modelled). -/
structure AgentAction where
  type : ActionType
  content : String
  toolCall : Option ToolCall := none
  toolResult : Option ToolResult := none

/-- The aggregate returned to the caller for one user turn. -/
structure AgenticResponse where
  text : String
  actions : List AgentAction
  toolCalls : List ToolCall
  toolResults : List ToolResult

/-- The untyped push `toolCalls.push(...parsed.tool_calls)`: each decoded
JSON element is used directly as a `ToolCall`, reading its `id`, `name` and
`parameters` fields.  A missing or non-string field reads as JS `undefined`;
it is rendered as `""`/`null` here, and no property depends on that corner —
every decoded call in the scenarios below carries proper fields. -/
def toToolCall (v : JsonVal) : ToolCall :=
  { id := match getField v "id" with | some (.str s) => s | _ => ""
    name := match getField v "name" with | some (.str s) => s | _ => ""
    parameters := (getField v "parameters").getD .null }

/-- `EliteAgenticCodingAgent.parseToolCalls`, at the type the loop consumes. -/
def parseToolCalls (response : String) : List ToolCall :=
  (parseToolCallsJson response).map toToolCall

/-- `EliteAgenticCodingAgent.formatToolResults`: the synthesized system
message enumerating each result's tool name, id, SUCCESS/ERROR status and
payload or error, followed by the continue instruction. -/
def formatToolResults (results : List ToolResult) : String :=
  "# Tool Execution Results\n\n" ++
  String.intercalate "\n\n---\n\n" (results.map fun r =>
    "Tool: " ++ r.name ++ " (ID: " ++ r.id ++ ")\nStatus: " ++
    (match r.error with | some _ => "ERROR" | none => "SUCCESS") ++
    "\nResult:\n" ++
    (match r.error with
     | some e => e
     | none => jsonStringify (r.result.getD .null))) ++
  "\n\nProcess these results and continue your work. Call more tools if needed."

/-- The project-summary system message pushed on the first round. -/
def summaryMessage (summary : String) : Message :=
  ⟨.system, "# Current Project Context\n\n" ++ summary⟩

/-- The `tool_call` action pushed for one issued call. -/
def toolCallAction (tc : ToolCall) : AgentAction :=
  { type := .tool_call, content := "Calling " ++ tc.name, toolCall := some tc }

/-- The `tool_result` action pushed for one received result. -/
def toolResultAction (r : ToolResult) : AgentAction :=
  { type := .tool_result, content := r.error.getD "Success", toolResult := some r }

/-- The mutable locals of one `chat()` run, plus the `contexts` trace
recording the message list handed to each generation call. -/
structure LoopSt where
  history : List Message
  actions : List AgentAction
  allToolCalls : List ToolCall
  allToolResults : List ToolResult
  fullText : String
  contexts : List (List Message)
  lastResponse : String

/-- One iteration of the `while` body, with `iter` the just-incremented
`iterationCount`.  Returns the updated locals and the `continueLoop` flag:
`true` exactly when the round decoded tool calls and executed the batch. -/
def chatStep (gen : Nat → String) (env : ToolEnv) (sysPrompt summary : String)
    (iter : Nat) (st : LoopSt) : LoopSt × Bool :=
  let ctx := (⟨.system, sysPrompt⟩ :: st.history)
    ++ (if iter = 1 then [summaryMessage summary] else [])
    ++ (if 0 < st.allToolResults.length ∧ 1 < iter then
         [⟨.system, formatToolResults st.allToolResults⟩] else [])
  let pending := if 0 < st.allToolResults.length ∧ 1 < iter then [] else st.allToolResults
  let response := gen iter
  let toolCalls := parseToolCalls response
  if 0 < toolCalls.length then
    let results := executeTools env toolCalls
    ({ history := st.history
       actions := st.actions ++ toolCalls.map toolCallAction ++ results.map toolResultAction
       allToolCalls := st.allToolCalls ++ toolCalls
       allToolResults := pending ++ results
       fullText := st.fullText ++ response
       contexts := st.contexts ++ [ctx]
       lastResponse := response }, true)
  else
    ({ history := st.history ++ [⟨.assistant, response⟩]
       actions := st.actions
       allToolCalls := st.allToolCalls
       allToolResults := pending
       fullText := st.fullText ++ response
       contexts := st.contexts ++ [ctx]
       lastResponse := response }, false)

/-- The `while (continueLoop && iterationCount < maxIterations)` loop.
`rem` is `maxIterations - iter`; the pair's boolean is the final value of
`continueLoop` — still `true` when only the cap stopped the loop. -/
def chatLoop (gen : Nat → String) (env : ToolEnv) (sysPrompt summary : String) :
    Nat → Nat → LoopSt → LoopSt × Bool
  | 0, _, st => (st, true)
  | rem + 1, iter, st =>
    let r := chatStep gen env sysPrompt summary (iter + 1) st
    if r.2 then chatLoop gen env sysPrompt summary rem (iter + 1) r.1
    else (r.1, false)

/-- Everything observable about one `chat()` run. -/
structure ChatTrace where
  response : AgenticResponse
  history : List Message
  contexts : List (List Message)
  lastResponse : String
  continueLoop : Bool

/-- `EliteAgenticCodingAgent.chat` for one user turn, with the iteration cap
`maxIterations` a parameter (the source fixes it to the constant 15).
`history0` is the engine's conversation ledger at entry, so two successive
calls on one engine chain their `history`. -/
def chat (gen : Nat → String) (env : ToolEnv) (maxIterations : Nat)
    (sysPrompt summary : String) (history0 : List Message) (userMessage : String) :
    ChatTrace :=
  let st0 : LoopSt :=
    { history := history0 ++ [⟨.user, userMessage⟩]
      actions := []
      allToolCalls := []
      allToolResults := []
      fullText := ""
      contexts := []
      lastResponse := "" }
  let r := chatLoop gen env sysPrompt summary maxIterations 0 st0
  { response :=
      { text := r.1.fullText
        actions := r.1.actions
        toolCalls := r.1.allToolCalls
        toolResults := r.1.allToolResults }
    history := r.1.history
    contexts := r.1.contexts
    lastResponse := r.1.lastResponse
    continueLoop := r.2 }

/-- `chat` at the source's iteration cap, `const maxIterations = 15`. -/
def chatSrc (gen : Nat → String) (env : ToolEnv) (sysPrompt summary : String)
    (history0 : List Message) (userMessage : String) : ChatTrace :=
  chat gen env 15 sysPrompt summary history0 userMessage

/-! ### Concrete fixtures

Collaborator behaviours and turn texts used to instantiate the scenario
properties.  The two tool-call turns follow the end-to-end scenario of the
requirements: a `list_files` round, a `read_file` round, then a plain
summary round. -/

/-- Round-1 turn text: one fenced block with one `list_files` call. -/
def tcText1 : String :=
  "I will list the files.\n```tool_call\n\x7b\"tool_calls\": [\x7b\"id\": \"call_1\", \"name\": \"list_files\", \"parameters\": \x7b\"pattern\": \"utils/**/*.js\"\x7d\x7d]\x7d\n```"

/-- Round-2 turn text: one fenced block with one `read_file` call. -/
def tcText2 : String :=
  "Reading the first file.\n```tool_call\n\x7b\"tool_calls\": [\x7b\"id\": \"call_2\", \"name\": \"read_file\", \"parameters\": \x7b\"path\": \"utils/a.js\"\x7d\x7d]\x7d\n```"

/-- The per-round generation trace of the end-to-end scenario. -/
def genScenario : Nat → String := fun i =>
  if i = 1 then tcText1
  else if i = 2 then tcText2
  else "All done: utils/a.js is the first JS file."

/-- The catalog bindings the scenario needs. -/
def envScenario : ToolEnv := fun n =>
  if n = "list_files" then some fun _ => .ok (.obj [("files", .arr [.str "utils/a.js"])])
  else if n = "read_file" then some fun _ => .ok (.str "export const a = 1;")
  else none

/-- A model that never requests tools. -/
def genHello : Nat → String := fun _ => "Hello!"

/-- An empty catalog binding. -/
def envNone : ToolEnv := fun _ => none

/-- A command-execution collaborator that always succeeds quietly. -/
def execQuiet : String → Except String ExecOutcome := fun _ => .ok ⟨"", ""⟩

/-- A batch of three calls: a succeeding handler, a throwing handler, and an
unregistered name. -/
def callsW : List ToolCall :=
  [{ id := "id1", name := "ok_tool", parameters := .null },
   { id := "id2", name := "boom", parameters := .null },
   { id := "id3", name := "missing", parameters := .null }]

/-- Handlers for `callsW`: `boom` rejects, `missing` is not registered. -/
def envW : ToolEnv := fun n =>
  if n = "ok_tool" then some fun _ => .ok (.str "fine")
  else if n = "boom" then some fun _ => .error "kaboom"
  else none

/-- A turn text whose first fenced block is malformed JSON and whose second
block is valid with one call. -/
def c6Text : String :=
  "a\n```tool_call\n\x7boops\x7d\n```\nb\n```tool_call\n\x7b\"tool_calls\": [\x7b\"id\": \"c1\", \"name\": \"read_file\", \"parameters\": \x7b\x7d\x7d]\x7d\n```\nc"

/-! ## Theorems -/

/-- A result's id is the paired call's id, whatever the handler does. -/
theorem executeTool_id (env : ToolEnv) (c : ToolCall) : (executeTool env c).id = c.id := by
  unfold executeTool
  split
  · rfl
  · split <;> rfl

/-- A result's name is the paired call's name, whatever the handler does. -/
theorem executeTool_name (env : ToolEnv) (c : ToolCall) :
    (executeTool env c).name = c.name := by
  unfold executeTool
  split
  · rfl
  · split <;> rfl

/-- Mapping a batch keeps the ids, pointwise. -/
theorem executeTools_map_id (env : ToolEnv) (calls : List ToolCall) :
    (executeTools env calls).map ToolResult.id = calls.map ToolCall.id := by
  simp [executeTools, List.map_map, Function.comp_def, executeTool_id]

/-- Mapping a batch keeps the names, pointwise. -/
theorem executeTools_map_name (env : ToolEnv) (calls : List ToolCall) :
    (executeTools env calls).map ToolResult.name = calls.map ToolCall.name := by
  simp [executeTools, List.map_map, Function.comp_def, executeTool_name]

/-- C1.  A batch of N pairwise-distinct-id calls yields exactly N results in
input order: the id (and name) sequences coincide, result ids stay distinct,
the i-th result is a function of the i-th call alone, and a call whose
handler throws gets exactly its own error captured in its own result. -/
theorem executeTools_batch_pairing (env : ToolEnv) (calls : List ToolCall)
    (hids : (calls.map ToolCall.id).Nodup) :
    (executeTools env calls).length = calls.length
    ∧ (executeTools env calls).map ToolResult.id = calls.map ToolCall.id
    ∧ (executeTools env calls).map ToolResult.name = calls.map ToolCall.name
    ∧ ((executeTools env calls).map ToolResult.id).Nodup
    ∧ (∀ i : Nat, (executeTools env calls)[i]? = Option.map (executeTool env) calls[i]?)
    ∧ (∀ (i : Nat) (ci : ToolCall) (exec : JsonVal → Except String JsonVal) (e : String),
        calls[i]? = some ci → env ci.name = some exec →
        exec ci.parameters = Except.error e →
        (executeTools env calls)[i]? =
          some { id := ci.id, name := ci.name, result := none, error := some e }) := by
  refine ⟨List.length_map _ _, executeTools_map_id env calls,
    executeTools_map_name env calls, ?_, ?_, ?_⟩
  · rw [executeTools_map_id]; exact hids
  · intro i; simp [executeTools, List.getElem?_map]
  · intro i ci exec e hi henv hexec
    simp [executeTools, List.getElem?_map, hi, executeTool, henv, hexec]

/-- Witness for C1 at a concrete three-call batch. -/
theorem executeTools_batch_pairing_witness :
    (callsW.map ToolCall.id).Nodup ∧ (executeTools envW callsW).length = callsW.length :=
  ⟨by decide, (executeTools_batch_pairing envW callsW (by decide)).1⟩

/-- C7.  A command containing any deny-listed substring is rejected with the
wrapped block error and the command-execution collaborator is never invoked:
the spawn log is empty. -/
theorem run_command_denylist_fail_closed
    (exec : String → Except String ExecOutcome) (command : String)
    (h : isDangerous command = true) :
    run_command exec command =
      (.error "Command failed: Dangerous command blocked", []) := by
  simp [run_command, h]

/-- Witness for C7 at a recursive force-delete command. -/
theorem run_command_denylist_fail_closed_witness :
    isDangerous "rm -rf /" = true ∧
    run_command execQuiet "rm -rf /" =
      (.error "Command failed: Dangerous command blocked", []) :=
  ⟨by decide, run_command_denylist_fail_closed execQuiet "rm -rf /" (by decide)⟩

/-- C8.  `analyze_code` of the empty content yields complexity exactly 1 and
no issues, and on every content the complexity is the conditional/loop
keyword count plus the logical-operator count plus the baseline 1. -/
theorem analyze_code_empty_file (p : String) :
    (analyzeCode p "").complexity = 1
    ∧ (analyzeCode p "").issues = []
    ∧ ∀ content : String,
        (analyzeCode p content).complexity =
          countMatches conditionalPats content.data +
          countMatches logicalPats content.data + 1 :=
  ⟨rfl, rfl, fun _ => rfl⟩

/-- The decoder loop is exactly "decode each captured block, concatenate in
document order". -/
theorem parseLoop_eq_flatMap : ∀ (fuel : Nat) (cs : List Char),
    parseLoop fuel cs = (extractBlocks fuel cs).flatMap decodeBlock := by
  intro fuel
  induction fuel with
  | zero => intro cs; rfl
  | succ n ih =>
    intro cs
    simp only [parseLoop, extractBlocks]
    cases h1 : splitAfterSub cs fenceMarker with
    | none => simp [h1]
    | some p =>
      obtain ⟨b, afterMarker⟩ := p
      cases h2 : splitAfterSub afterMarker fenceCloser with
      | none => simp [h1, h2]
      | some q =>
        obtain ⟨content, rest⟩ := q
        simp [h1, h2, ih]

/-- C6.  Blocks are decoded independently and concatenated in document order;
a block whose trimmed content `JSON.parse` rejects contributes nothing (the
others still decode); on the concrete text with a malformed block before a
valid one, exactly the valid block's call comes out. -/
theorem parseToolCalls_independent_blocks :
    (∀ response : String,
      parseToolCallsJson response =
        (extractBlocks (response.data.length + 1) response.data).flatMap decodeBlock)
    ∧ (∀ block : List Char,
        jsonParse (String.mk (trimList block)) = none → decodeBlock block = [])
    ∧ parseToolCallsJson c6Text =
        [JsonVal.obj [("id", .str "c1"), ("name", .str "read_file"),
                      ("parameters", .obj [])]] := by
  refine ⟨fun response => parseLoop_eq_flatMap _ _, ?_, rfl⟩
  intro block h
  simp [decodeBlock, h]

/-- Witness for C6: the malformed first block of `c6Text` is itself a block
`JSON.parse` rejects, so it decodes to nothing. -/
theorem parseToolCalls_independent_blocks_witness :
    jsonParse (String.mk (trimList "\x7boops\x7d".data)) = none ∧
    decodeBlock "\x7boops\x7d".data = [] :=
  ⟨rfl, parseToolCalls_independent_blocks.2.1 _ rfl⟩

/-- Prepending the empty string is the identity. -/
theorem string_empty_append (s : String) : "" ++ s = s := by
  cases s
  rfl

/-- Every round records exactly one more generation context. -/
theorem chatStep_contexts_len (gen : Nat → String) (env : ToolEnv) (sp sum : String)
    (iter : Nat) (st : LoopSt) :
    (chatStep gen env sp sum iter st).1.contexts.length = st.contexts.length + 1 := by
  unfold chatStep
  by_cases hc : 0 < (parseToolCalls (gen iter)).length <;> simp [hc]

/-- Every round appends its context to the trace. -/
theorem chatStep_contexts_append (gen : Nat → String) (env : ToolEnv) (sp sum : String)
    (iter : Nat) (st : LoopSt) :
    ∃ c, (chatStep gen env sp sum iter st).1.contexts = st.contexts ++ [c] := by
  unfold chatStep
  by_cases hc : 0 < (parseToolCalls (gen iter)).length <;> simp [hc]

/-- A round that decoded tool calls leaves the ledger untouched. -/
theorem chatStep_history_cont (gen : Nat → String) (env : ToolEnv) (sp sum : String)
    (iter : Nat) (st : LoopSt) (h : (chatStep gen env sp sum iter st).2 = true) :
    (chatStep gen env sp sum iter st).1.history = st.history := by
  unfold chatStep at h ⊢
  by_cases hc : 0 < (parseToolCalls (gen iter)).length
  · simp [hc]
  · simp [hc] at h

/-- A round that decoded no calls appends exactly the assistant message for
its own response. -/
theorem chatStep_history_stop (gen : Nat → String) (env : ToolEnv) (sp sum : String)
    (iter : Nat) (st : LoopSt) (h : (chatStep gen env sp sum iter st).2 = false) :
    (chatStep gen env sp sum iter st).1.history =
      st.history ++ [⟨Role.assistant, (chatStep gen env sp sum iter st).1.lastResponse⟩] := by
  unfold chatStep at h ⊢
  by_cases hc : 0 < (parseToolCalls (gen iter)).length
  · simp [hc] at h
  · simp [hc]

/-- A round (other than a first round entered with a non-empty buffer, which
cannot happen) that decodes no calls ends with an empty pending tool-result
buffer: round 1 starts with it empty and every later round clears it. -/
theorem chatStep_stop_results_nil (gen : Nat → String) (env : ToolEnv) (sp sum : String)
    (iter : Nat) (st : LoopSt) (h1 : iter ≤ 1 → st.allToolResults = [])
    (h : (chatStep gen env sp sum iter st).2 = false) :
    (chatStep gen env sp sum iter st).1.allToolResults = [] := by
  unfold chatStep at h ⊢
  by_cases hc : 0 < (parseToolCalls (gen iter)).length
  · simp [hc] at h
  · simp only [hc, if_false, if_neg]
    by_cases hclear : 0 < st.allToolResults.length ∧ 1 < iter
    · simp [hclear]
    · simp only [if_neg hclear]
      rcases Nat.eq_zero_or_pos st.allToolResults.length with hlen | hlen
      · exact List.length_eq_zero.mp hlen
      · rcases Nat.lt_or_ge 1 iter with hi | hi
        · exact absurd ⟨hlen, hi⟩ hclear
        · exact h1 hi

/-- The loop pushes at most one context per remaining iteration. -/
theorem chatLoop_contexts_le (gen : Nat → String) (env : ToolEnv) (sp sum : String) :
    ∀ (rem iter : Nat) (st : LoopSt),
      (chatLoop gen env sp sum rem iter st).1.contexts.length ≤ st.contexts.length + rem := by
  intro rem
  induction rem with
  | zero => intro iter st; simp [chatLoop]
  | succ n ih =>
    intro iter st
    simp only [chatLoop]
    have hlen := chatStep_contexts_len gen env sp sum (iter + 1) st
    cases hr : (chatStep gen env sp sum (iter + 1) st).2 with
    | true =>
      simp only [if_true]
      have := ih (iter + 1) (chatStep gen env sp sum (iter + 1) st).1
      omega
    | false =>
      simp only [Bool.false_eq_true, if_false]
      omega

/-- If the run stopped naturally (`continueLoop` ended `false`), the pending
tool-result buffer — and hence the returned `toolResults` — is empty: the
buffer is cleared at the top of every later round and the natural branch
never refills it. -/
theorem chatLoop_stopped_results_nil (gen : Nat → String) (env : ToolEnv) (sp sum : String) :
    ∀ (rem iter : Nat) (st : LoopSt), (iter = 0 → st.allToolResults = []) →
      (chatLoop gen env sp sum rem iter st).2 = false →
      (chatLoop gen env sp sum rem iter st).1.allToolResults = [] := by
  intro rem
  induction rem with
  | zero => intro iter st h0 hstop; simp [chatLoop] at hstop
  | succ n ih =>
    intro iter st h0 hstop
    simp only [chatLoop] at hstop ⊢
    cases hr : (chatStep gen env sp sum (iter + 1) st).2 with
    | true =>
      simp only [hr, if_true] at hstop ⊢
      exact ih (iter + 1) _ (by omega) hstop
    | false =>
      simp only [hr, Bool.false_eq_true, if_false] at hstop ⊢
      exact chatStep_stop_results_nil gen env sp sum (iter + 1) st
        (fun h => h0 (by omega)) hr

/-- The run's ledger is its entry ledger, plus the final assistant message
exactly when the run stopped naturally. -/
theorem chatLoop_history_shape (gen : Nat → String) (env : ToolEnv) (sp sum : String) :
    ∀ (rem iter : Nat) (st : LoopSt),
      (chatLoop gen env sp sum rem iter st).1.history =
        st.history ++
        (if (chatLoop gen env sp sum rem iter st).2 = true then []
         else [⟨Role.assistant, (chatLoop gen env sp sum rem iter st).1.lastResponse⟩]) := by
  intro rem
  induction rem with
  | zero => intro iter st; simp [chatLoop]
  | succ n ih =>
    intro iter st
    simp only [chatLoop]
    cases hr : (chatStep gen env sp sum (iter + 1) st).2 with
    | true =>
      simp only [if_true]
      rw [ih (iter + 1) (chatStep gen env sp sum (iter + 1) st).1,
        chatStep_history_cont gen env sp sum (iter + 1) st hr]
    | false =>
      simp only [Bool.false_eq_true, if_false]
      exact chatStep_history_stop gen env sp sum (iter + 1) st hr

/-- The first context handed to the generator is not revisited: later rounds
only append to the trace. -/
theorem chatLoop_contexts_head (gen : Nat → String) (env : ToolEnv) (sp sum : String) :
    ∀ (rem iter : Nat) (st : LoopSt) (x : List Message),
      st.contexts.head? = some x →
      (chatLoop gen env sp sum rem iter st).1.contexts.head? = some x := by
  intro rem
  induction rem with
  | zero => intro iter st x hx; simpa [chatLoop] using hx
  | succ n ih =>
    intro iter st x hx
    simp only [chatLoop]
    have hhead : (chatStep gen env sp sum (iter + 1) st).1.contexts.head? = some x := by
      obtain ⟨c, hc⟩ := chatStep_contexts_append gen env sp sum (iter + 1) st
      rw [hc, List.head?_append, hx]
      rfl
    cases hr : (chatStep gen env sp sum (iter + 1) st).2 with
    | true =>
      simp only [if_true]
      exact ih (iter + 1) _ x hhead
    | false =>
      simpa using hhead

/-- C4.  With the iteration limit K the loop invokes the generation
collaborator at most K times, whatever the model does on every round; at the
source's constant the bound is 15.  (Termination itself is structural:
`chat` is a total function.) -/
theorem chat_generation_calls_bounded (gen : Nat → String) (env : ToolEnv)
    (K : Nat) (sp sum : String) (h0 : List Message) (u : String) :
    (chat gen env K sp sum h0 u).contexts.length ≤ K
    ∧ (chatSrc gen env sp sum h0 u).contexts.length ≤ 15 := by
  constructor
  · have := chatLoop_contexts_le gen env sp sum K 0
      { history := h0 ++ [⟨Role.user, u⟩], actions := [], allToolCalls := [],
        allToolResults := [], fullText := "", contexts := [], lastResponse := "" }
    simpa [chat] using this
  · have := chatLoop_contexts_le gen env sp sum 15 0
      { history := h0 ++ [⟨Role.user, u⟩], actions := [], allToolCalls := [],
        allToolResults := [], fullText := "", contexts := [], lastResponse := "" }
    simpa [chatSrc, chat] using this

/-- C10.  The user message is appended at entry; the final assistant message
is appended exactly when the run stopped naturally (`continueLoop = false`),
and a cap-forced stop records none of the run's generated text. -/
theorem chat_ledger_assistant_iff_natural (gen : Nat → String) (env : ToolEnv)
    (K : Nat) (sp sum : String) (h0 : List Message) (u : String) :
    (chat gen env K sp sum h0 u).history =
      (h0 ++ [⟨Role.user, u⟩]) ++
      (if (chat gen env K sp sum h0 u).continueLoop = true then []
       else [⟨Role.assistant, (chat gen env K sp sum h0 u).lastResponse⟩]) := by
  have := chatLoop_history_shape gen env sp sum K 0
    { history := h0 ++ [⟨Role.user, u⟩], actions := [], allToolCalls := [],
      allToolResults := [], fullText := "", contexts := [], lastResponse := "" }
  simpa [chat] using this

/-- C9.  A turn whose first generated text decodes to zero tool calls stops
after exactly one generation round-trip: the assistant message is appended to
the ledger and the loop ends naturally with no calls and no results. -/
theorem chat_no_calls_single_round (gen : Nat → String) (env : ToolEnv)
    (sp sum : String) (h0 : List Message) (u : String)
    (h : (parseToolCalls (gen 1)).length = 0) :
    (chatSrc gen env sp sum h0 u).contexts.length = 1
    ∧ (chatSrc gen env sp sum h0 u).continueLoop = false
    ∧ (chatSrc gen env sp sum h0 u).history =
        h0 ++ [⟨Role.user, u⟩, ⟨Role.assistant, gen 1⟩]
    ∧ (chatSrc gen env sp sum h0 u).response.text = gen 1
    ∧ (chatSrc gen env sp sum h0 u).response.toolCalls = []
    ∧ (chatSrc gen env sp sum h0 u).response.toolResults = [] := by
  have e15 : (15 : Nat) = 14 + 1 := rfl
  refine ⟨?_, ?_, ?_, ?_, ?_, ?_⟩ <;>
  · simp only [chatSrc, chat, e15, chatLoop]
    simp [chatStep, h, string_empty_append]

/-- Witness for C9: a model that answers in plain text stops after one
round. -/
theorem chat_no_calls_single_round_witness :
    (parseToolCalls (genHello 1)).length = 0
    ∧ (chatSrc genHello envNone "SP" "SUM" [] "hi").continueLoop = false :=
  ⟨by decide,
   (chat_no_calls_single_round genHello envNone "SP" "SUM" [] "hi" (by decide)).2.1⟩

/-- C3.  With the cap at 1 and a first round that decodes tool calls, the
engine executes the batch but performs no second round-trip, and the
returned aggregate is observably a cap-forced stop: it carries the full
non-empty result batch, while every naturally-stopped run returns an empty
`toolResults` — so no natural `FINALIZE` can produce this response. -/
theorem chat_iteration_cap_observable (gen : Nat → String) (env : ToolEnv)
    (sp sum : String) (h0 : List Message) (u : String)
    (h : 0 < (parseToolCalls (gen 1)).length) :
    (chat gen env 1 sp sum h0 u).contexts.length = 1
    ∧ (chat gen env 1 sp sum h0 u).continueLoop = true
    ∧ 0 < (chat gen env 1 sp sum h0 u).response.toolResults.length
    ∧ (chat gen env 1 sp sum h0 u).response.toolResults =
        executeTools env (parseToolCalls (gen 1))
    ∧ ∀ (gen' : Nat → String) (env' : ToolEnv) (K : Nat) (sp' sum' : String)
        (h0' : List Message) (u' : String),
        (chat gen' env' K sp' sum' h0' u').continueLoop = false →
        (chat gen' env' K sp' sum' h0' u').response.toolResults = [] := by
  have hstep2 : ∀ st : LoopSt, (chatStep gen env sp sum 1 st).2 = true := by
    intro st
    simp [chatStep, h]
  have hone : ∀ st : LoopSt, chatLoop gen env sp sum 1 0 st =
      (if (chatStep gen env sp sum 1 st).2 then
        chatLoop gen env sp sum 0 1 (chatStep gen env sp sum 1 st).1
      else ((chatStep gen env sp sum 1 st).1, false)) := fun _ => rfl
  have hrun : ∀ st : LoopSt, chatLoop gen env sp sum 1 0 st =
      ((chatStep gen env sp sum 1 st).1, true) := by
    intro st
    rw [hone st, hstep2 st]
    simp [chatLoop]
  refine ⟨?_, ?_, ?_, ?_, ?_⟩
  · simp only [chat, hrun]
    have := chatStep_contexts_len gen env sp sum 1
      { history := h0 ++ [⟨Role.user, u⟩], actions := [], allToolCalls := [],
        allToolResults := [], fullText := "", contexts := [], lastResponse := "" }
    simpa using this
  · simp only [chat, hrun]
  · simp only [chat, hrun]
    simp [chatStep, h, executeTools]
  · simp only [chat, hrun]
    simp [chatStep, h]
  · intro gen' env' K sp' sum' h0' u' hstop
    have hres := chatLoop_stopped_results_nil gen' env' sp' sum' K 0
      { history := h0' ++ [⟨Role.user, u'⟩], actions := [], allToolCalls := [],
        allToolResults := [], fullText := "", contexts := [], lastResponse := "" }
      (fun _ => rfl) (by simpa [chat] using hstop)
    simpa [chat] using hres

/-- Witness for C3 at the concrete scenario model with cap 1. -/
theorem chat_iteration_cap_observable_witness :
    0 < (parseToolCalls (genScenario 1)).length
    ∧ (chat genScenario envScenario 1 "SP" "SUM" [] "u").continueLoop = true :=
  ⟨by decide,
   (chat_iteration_cap_observable genScenario envScenario "SP" "SUM" [] "u"
     (by decide)).2.1⟩

/-- C2 evidence.  On the end-to-end scenario (round 1 one `list_files` call,
round 2 one `read_file` call, round 3 no calls) the returned aggregate has 2
tool calls and 4 actions as specified, but its `toolResults` is empty — the
`allToolResults` buffer is cleared at the top of each later round to build
the feedback message, so the accumulated results are dropped from the
returned `AgenticResponse` on every natural stop. -/
theorem chat_scenario_drops_toolResults :
    (chatSrc genScenario envScenario "SP" "SUM" []
        "list JS files under utils, then show me the first one").response.toolCalls.length = 2
    ∧ (chatSrc genScenario envScenario "SP" "SUM" []
        "list JS files under utils, then show me the first one").response.actions.length = 4
    ∧ (chatSrc genScenario envScenario "SP" "SUM" []
        "list JS files under utils, then show me the first one").contexts.length = 3
    ∧ (chatSrc genScenario envScenario "SP" "SUM" []
        "list JS files under utils, then show me the first one").continueLoop = false
    ∧ (chatSrc genScenario envScenario "SP" "SUM" []
        "list JS files under utils, then show me the first one").response.toolResults.length = 0 := by
  decide

/-- C5 counterexample.  Two successive `chat()` runs on one engine: the
second run's first generation context receives the project-summary system
message again, because the summary is pushed whenever the *run-local*
iteration counter is 1. -/
theorem chat_summary_reinjected_second_call :
    summaryMessage "SUM" ∈
      ((chatSrc genHello envNone "SP" "SUM"
          (chatSrc genHello envNone "SP" "SUM" [] "hi").history "again").contexts.getD 0 []) := by
  decide

/-- C5 amended.  The project summary is injected on the first loop iteration
of *every* `chat()` run (not once per engine lifetime): whenever the cap
allows at least one round, the run's first generation context is exactly the
system prompt, the entry ledger with the new user message, and the
project-summary message. -/
theorem chat_summary_first_iteration_each_run (gen : Nat → String) (env : ToolEnv)
    (K : Nat) (sp sum : String) (h0 : List Message) (u : String) (hK : 0 < K) :
    (chat gen env K sp sum h0 u).contexts.head? =
      some ((⟨Role.system, sp⟩ :: (h0 ++ [⟨Role.user, u⟩])) ++ [summaryMessage sum]) := by
  obtain ⟨K', rfl⟩ : ∃ K', K = K' + 1 := ⟨K - 1, by omega⟩
  have hfirst : (chatStep gen env sp sum (0 + 1)
      { history := h0 ++ [⟨Role.user, u⟩], actions := [], allToolCalls := [],
        allToolResults := [], fullText := "", contexts := [],
        lastResponse := "" }).1.contexts.head? =
      some ((⟨Role.system, sp⟩ :: (h0 ++ [⟨Role.user, u⟩])) ++ [summaryMessage sum]) := by
    by_cases hc : 0 < (parseToolCalls (gen (0 + 1))).length <;> simp [chatStep, hc]
  simp only [chat, chatLoop]
  cases hr : (chatStep gen env sp sum (0 + 1)
      { history := h0 ++ [⟨Role.user, u⟩], actions := [], allToolCalls := [],
        allToolResults := [], fullText := "", contexts := [],
        lastResponse := "" }).2 with
  | true =>
    simp only [hr, if_true]
    exact chatLoop_contexts_head gen env sp sum K' (0 + 1) _ _ hfirst
  | false =>
    simp only [hr, Bool.false_eq_true, if_false]
    exact hfirst

/-- Witness for the amended C5 at the source cap. -/
theorem chat_summary_first_iteration_each_run_witness :
    0 < 15
    ∧ (chat genHello envNone 15 "SP" "SUM" [] "hi").contexts.head? =
        some ((⟨Role.system, "SP"⟩ :: ([] ++ [⟨Role.user, "hi"⟩])) ++ [summaryMessage "SUM"]) :=
  ⟨by decide,
   chat_summary_first_iteration_each_run genHello envNone 15 "SP" "SUM" [] "hi" (by decide)⟩

end Spec2Proof
